import Mathlib

set_option maxRecDepth 8000

/-!
Verification development for the hashstats server (davay42/hashstats).

The development shallowly embeds the probabilistic counting core and the
ingestion pipeline of the repository. Pure JavaScript functions become Lean
functions over Nat, Int, Rat, List and String; the external collaborators
(blake3, ed25519, bech32, the bloom-filters library structures and the file
system) are either taken as explicit function parameters or modelled from the
specification at their documented boundary. Machine integers are modelled with
Nat together with explicit masks, shifts and divisions, exactly as the source
performs them on BigInt values.
-/

/-- Model of the HyperLogLog object of the external bloom-filters library as
the repository uses it: the private fields read and written by the source are
the register count, the number of low-order index bits, and the register
array. -/
structure HyperLogLog where
  nbRegisters : Nat
  nbBytesPerHash : Nat
  registers : List Nat
deriving Repr, DecidableEq

/-- Modelled from the spec: the constructor `new HyperLogLog(m)` of the
external bloom-filters library creates m registers initialised to zero; for a
power-of-two m the private index-bit-count field equals log2(m) (the library
rejects any other m). -/
def newHyperLogLog (m : Nat) : HyperLogLog :=
  { nbRegisters := m, nbBytesPerHash := Nat.log2 m, registers := List.replicate m 0 }

/-- Modelled from the spec: `merge(other)` of the external bloom-filters
library; the result is the pointwise maximum of the two register arrays and it
requires both estimators to have the same register count (section 4.2 of the
spec). The receiver keeps its own configuration fields. -/
def HyperLogLog.merge (a b : HyperLogLog) : HyperLogLog :=
  { a with registers := List.zipWith max a.registers b.registers }

/-- Well-formedness of an estimator as produced by the library constructor:
the index-bit-count is log2 of the register count and the register array has
exactly that many entries. -/
def HyperLogLog.WF (h : HyperLogLog) : Prop :=
  h.nbBytesPerHash = Nat.log2 h.nbRegisters ∧ h.registers.length = h.nbRegisters

/-- Register count configured by the server (part_000 line 11). -/
def HLL_REGISTERS : Nat := 1024

/-- Replay window in milliseconds (part_000 line 12). -/
def NONCE_WINDOW_MS : Nat := 60000

/-- Embedding of `hashTo64BigInt` (server.js lines 405-409, part_001 lines
44-48): fold the first eight digest bytes big-endian into one 64-bit value.
The inlined loop of part_000 lines 38-39 is identical. Out-of-range reads
default to 0; a blake3 digest always has 32 bytes, so the default is unused
on real digests. -/
def hashTo64BigInt (digest : List Nat) : Nat :=
  (List.range 8).foldl (fun v i => (v <<< 8) ||| digest.getD i 0) 0

/-- Model of `BigInt.prototype.toString(2)`: most-significant-first binary
digits, and the single character 0 for the value 0. -/
def toBinaryChars (n : Nat) : List Char :=
  if n = 0 then ['0']
  else ((Nat.digits 2 n).map (fun d => if d = 1 then '1' else '0')).reverse

/-- Model of `String.prototype.padStart(k, "0")`: left-pad with zero
characters up to length k (no-op when already at least k long). -/
def padZeros (k : Nat) (s : List Char) : List Char :=
  List.replicate (k - s.length) '0' ++ s

/-- Model of the ternary `idx === -1 ? k : idx + 1` (part_000 line 49), with
the JavaScript indexOf result -1 rendered as `none`. -/
def rankFromIdx (k : Nat) (idx : Option Nat) : Nat :=
  match idx with
  | none => k
  | some i => i + 1

/-- Embedding of `customHllUpdate` (part_000 lines 34-52): split the 64-bit
digest value into the low `_nbBytesPerHash` index bits and the high remainder,
derive the rank from the binary string of the remainder, and write the
pointwise maximum into the register. The blake3 digest of the element is
passed in as `digest`; blake3 itself is an external library. -/
def customHllUpdate (digest : List Nat) (hll : HyperLogLog) : HyperLogLog :=
  let v := hashTo64BigInt digest
  let nbBits := hll.nbBytesPerHash
  let mask := (1 <<< nbBits) - 1
  let registerIndex := v &&& mask
  let second := v >>> nbBits
  let k := 64 - nbBits
  let secondBin := padZeros k (toBinaryChars second)
  let idx := secondBin.findIdx? (fun c => c == '1')
  let rho := rankFromIdx k idx
  let newRegisters := hll.registers.set registerIndex
    (max (hll.registers.getD registerIndex 0) rho)
  { hll with registers := newRegisters }

/-- Rank exactly as the words of claim C1 and spec section 4.2 describe it:
1 plus the position of the least-significant set bit of the remainder,
scanning upward from the bit adjacent to the register-index field, or k when
the remainder is all zero. Stated only to compare the specification against
`customHllUpdate`. -/
def specRank (k second : Nat) : Nat :=
  match (List.range k).findIdx? (fun i => (second >>> i) &&& 1 == 1) with
  | none => k
  | some i => i + 1

/-- The update operation claim C1 describes: identical to `customHllUpdate`
except that the rank is `specRank`. -/
def specHllUpdate (digest : List Nat) (hll : HyperLogLog) : HyperLogLog :=
  let v := hashTo64BigInt digest
  let nbBits := hll.nbBytesPerHash
  let registerIndex := v &&& ((1 <<< nbBits) - 1)
  let second := v >>> nbBits
  let k := 64 - nbBits
  let newRegisters := hll.registers.set registerIndex
    (max (hll.registers.getD registerIndex 0) (specRank k second))
  { hll with registers := newRegisters }

/-- Closed form of the rank the code actually computes: 1 plus the number of
high-order zero bits of the k-bit remainder field, which is k minus the
floor of log2 of the remainder, or k when the remainder is zero. -/
def codeRank (k second : Nat) : Nat :=
  if second = 0 then k else k - Nat.log2 second

/-- The amended update of claim C1: register index is the digest value modulo
2 to the index-bit-count, and the rank is `codeRank` of the high remainder. -/
def amendedHllUpdate (digest : List Nat) (hll : HyperLogLog) : HyperLogLog :=
  let v := hashTo64BigInt digest
  let nbBits := hll.nbBytesPerHash
  let registerIndex := v % 2 ^ nbBits
  let second := v / 2 ^ nbBits
  let k := 64 - nbBits
  let newRegisters := hll.registers.set registerIndex
    (max (hll.registers.getD registerIndex 0) (codeRank k second))
  { hll with registers := newRegisters }

/-- Register index and rank computed by `customHllUpdate`, named so that the
bounds claims can speak about them. -/
def hllIndexAndRank (digest : List Nat) (hll : HyperLogLog) : Nat × Nat :=
  let v := hashTo64BigInt digest
  let nbBits := hll.nbBytesPerHash
  let mask := (1 <<< nbBits) - 1
  let registerIndex := v &&& mask
  let second := v >>> nbBits
  let k := 64 - nbBits
  let secondBin := padZeros k (toBinaryChars second)
  let idx := secondBin.findIdx? (fun c => c == '1')
  (registerIndex, rankFromIdx k idx)

theorem zipWith_max_assoc (l1 l2 l3 : List Nat) :
    List.zipWith max (List.zipWith max l1 l2) l3
      = List.zipWith max l1 (List.zipWith max l2 l3) := by
  induction l1 generalizing l2 l3 with
  | nil => simp
  | cons a t ih =>
    cases l2 with
    | nil => simp
    | cons b t2 =>
      cases l3 with
      | nil => simp
      | cons c t3 => simp [ih, Nat.max_assoc]

theorem zipWith_max_self (l : List Nat) : List.zipWith max l l = l := by
  rw [List.zipWith_same]
  simp

/-- C2: merge of two estimators with the same register count is the pointwise
maximum of the register arrays, and merge is commutative, associative and
idempotent. -/
theorem hll_merge_pointwise_max_comm_assoc_idem (A B C : HyperLogLog)
    (hA : A.WF) (hB : B.WF) (hAB : A.nbRegisters = B.nbRegisters)
    (hBC : B.nbRegisters = C.nbRegisters) :
    (A.merge B).registers = List.zipWith max A.registers B.registers ∧
    A.merge B = B.merge A ∧
    (A.merge B).merge C = A.merge (B.merge C) ∧
    A.merge A = A := by
  obtain ⟨hA1, hA2⟩ := hA
  obtain ⟨hB1, hB2⟩ := hB
  refine ⟨rfl, ?_, ?_, ?_⟩
  · unfold HyperLogLog.merge
    have hreg : List.zipWith max A.registers B.registers
        = List.zipWith max B.registers A.registers :=
      List.zipWith_comm_of_comm max Nat.max_comm A.registers B.registers
    cases A with
    | mk an ab ar =>
      cases B with
      | mk bn bb br =>
        simp only [HyperLogLog.mk.injEq] at *
        exact ⟨hAB, by rw [hA1, hB1, hAB], hreg⟩
  · unfold HyperLogLog.merge
    simp [zipWith_max_assoc]
  · unfold HyperLogLog.merge
    cases A with
    | mk an ab ar => simp [zipWith_max_self]

/-- Witness for C2 at concrete two-register estimators. -/
theorem hll_merge_witness :
    let A : HyperLogLog := { nbRegisters := 2, nbBytesPerHash := 1, registers := [0, 3] }
    let B : HyperLogLog := { nbRegisters := 2, nbBytesPerHash := 1, registers := [2, 1] }
    let C : HyperLogLog := { nbRegisters := 2, nbBytesPerHash := 1, registers := [1, 1] }
    (A.merge B).registers = List.zipWith max A.registers B.registers ∧
    A.merge B = B.merge A ∧
    (A.merge B).merge C = A.merge (B.merge C) ∧
    A.merge A = A :=
  hll_merge_pointwise_max_comm_assoc_idem
    { nbRegisters := 2, nbBytesPerHash := 1, registers := [0, 3] }
    { nbRegisters := 2, nbBytesPerHash := 1, registers := [2, 1] }
    { nbRegisters := 2, nbBytesPerHash := 1, registers := [1, 1] }
    ⟨by simp [Nat.log2], rfl⟩ ⟨by simp [Nat.log2], rfl⟩ rfl rfl

theorem findIdx_one_replicate_none (m i : Nat) :
    List.findIdx? (fun c => c == '1') (List.replicate m '0') i = none := by
  induction m generalizing i with
  | zero => simp
  | succ n ih => simp [List.replicate_succ, List.findIdx?_cons, ih]

theorem findIdx_one_pad_eq (m : Nat) (l : List Char) (h : l.head? = some '1') :
    List.findIdx? (fun c => c == '1') (List.replicate m '0' ++ l) = some m := by
  cases l with
  | nil => simp at h
  | cons c t =>
    simp only [List.head?_cons, Option.some.injEq] at h
    subst h
    rw [List.findIdx?_append, findIdx_one_replicate_none]
    simp [List.findIdx?_cons]

theorem toBinaryChars_head? (n : Nat) (hn : n ≠ 0) :
    (toBinaryChars n).head? = some '1' := by
  unfold toBinaryChars
  rw [if_neg hn, List.head?_reverse, List.getLast?_map]
  have hne : Nat.digits 2 n ≠ [] := Nat.digits_ne_nil_iff_ne_zero.mpr hn
  rw [List.getLast?_eq_getLast _ hne]
  have h1 : (Nat.digits 2 n).getLast hne ≠ 0 := Nat.getLast_digit_ne_zero 2 hn
  have h2 : (Nat.digits 2 n).getLast hne < 2 :=
    Nat.digits_lt_base (by norm_num) (List.getLast_mem hne)
  have h3 : (Nat.digits 2 n).getLast hne = 1 := by omega
  simp [h3]

theorem toBinaryChars_length (n : Nat) (hn : n ≠ 0) :
    (toBinaryChars n).length = Nat.log2 n + 1 := by
  unfold toBinaryChars
  rw [if_neg hn]
  simp [Nat.digits_len 2 n (by norm_num) hn, Nat.log2_eq_log_two]

theorem rankFromIdx_pad_eq_codeRank (k second : Nat) (hk : 0 < k)
    (hs : second < 2 ^ k) :
    rankFromIdx k ((padZeros k (toBinaryChars second)).findIdx? (fun c => c == '1'))
      = codeRank k second := by
  by_cases h0 : second = 0
  · subst h0
    have hb : toBinaryChars 0 = ['0'] := rfl
    rw [hb]
    unfold padZeros
    have hrep : List.replicate (k - ([ '0' ] : List Char).length) '0' ++ ['0']
        = List.replicate k '0' := by
      rw [← List.replicate_succ']
      congr 1
      simp
      omega
    rw [hrep, findIdx_one_replicate_none]
    rfl
  · have hlen : (toBinaryChars second).length = Nat.log2 second + 1 :=
      toBinaryChars_length _ h0
    have hL : Nat.log2 second < k := by
      rw [Nat.log2_eq_log_two]
      exact Nat.log_lt_of_lt_pow h0 hs
    unfold padZeros
    rw [findIdx_one_pad_eq _ _ (toBinaryChars_head? _ h0), hlen]
    simp only [rankFromIdx, codeRank, if_neg h0]
    omega

theorem foldl_shift_or_lt (digest : List Nat) (hb : ∀ b ∈ digest, b < 256) :
    ∀ (l : List Nat) (v m : Nat), v < 2 ^ m →
      List.foldl (fun v i => (v <<< 8) ||| digest.getD i 0) v l
        < 2 ^ (m + 8 * l.length) := by
  intro l
  induction l with
  | nil => intro v m hv; simpa using hv
  | cons a t ih =>
    intro v m hv
    have hd : digest.getD a 0 < 256 := by
      rw [List.getD_eq_getElem?_getD]
      cases h : digest[a]? with
      | none => simp
      | some b =>
        have := hb b (List.getElem?_mem h)
        simpa using this
    have hstep : (v <<< 8) ||| digest.getD a 0 < 2 ^ (m + 8) := by
      apply Nat.or_lt_two_pow
      · rw [Nat.shiftLeft_eq, pow_add]
        exact Nat.mul_lt_mul_of_lt_of_le hv (le_refl _) (by norm_num)
      · calc digest.getD a 0 < 256 := hd
          _ = 2 ^ 8 := by norm_num
          _ ≤ 2 ^ (m + 8) := Nat.pow_le_pow_right (by norm_num) (by omega)
    have hrec := ih ((v <<< 8) ||| digest.getD a 0) (m + 8) hstep
    simp only [List.foldl_cons, List.length_cons]
    have harith : m + 8 + 8 * t.length = m + 8 * (t.length + 1) := by ring
    rw [harith] at hrec
    exact hrec

theorem hashTo64BigInt_lt (digest : List Nat) (hb : ∀ b ∈ digest, b < 256) :
    hashTo64BigInt digest < 2 ^ 64 := by
  have h := foldl_shift_or_lt digest hb (List.range 8) 0 0 (by norm_num)
  simpa [hashTo64BigInt] using h

theorem customHllUpdate_closed_form (digest : List Nat) (hll : HyperLogLog)
    (hb : ∀ b ∈ digest, b < 256) (hn : hll.nbBytesPerHash < 64) :
    customHllUpdate digest hll = amendedHllUpdate digest hll := by
  have hv : hashTo64BigInt digest < 2 ^ 64 := hashTo64BigInt_lt digest hb
  have hidx : hashTo64BigInt digest &&& ((1 <<< hll.nbBytesPerHash) - 1)
      = hashTo64BigInt digest % 2 ^ hll.nbBytesPerHash := by
    rw [Nat.shiftLeft_eq, one_mul, Nat.and_pow_two_sub_one_eq_mod]
  have hsec : hashTo64BigInt digest >>> hll.nbBytesPerHash
      = hashTo64BigInt digest / 2 ^ hll.nbBytesPerHash :=
    Nat.shiftRight_eq_div_pow _ _
  have hslt : hashTo64BigInt digest / 2 ^ hll.nbBytesPerHash
      < 2 ^ (64 - hll.nbBytesPerHash) := by
    rw [Nat.div_lt_iff_lt_mul (Nat.two_pow_pos _)]
    calc hashTo64BigInt digest < 2 ^ 64 := hv
      _ = 2 ^ (64 - hll.nbBytesPerHash) * 2 ^ hll.nbBytesPerHash := by
          rw [← pow_add]
          congr 1
          omega
  have hrank := rankFromIdx_pad_eq_codeRank (64 - hll.nbBytesPerHash)
    (hashTo64BigInt digest / 2 ^ hll.nbBytesPerHash) (by omega) hslt
  simp only [customHllUpdate, amendedHllUpdate, hidx, hsec, hrank]

theorem hash_div_lt (digest : List Nat) (hb : ∀ b ∈ digest, b < 256)
    (n : Nat) (hn : n ≤ 64) :
    hashTo64BigInt digest / 2 ^ n < 2 ^ (64 - n) := by
  rw [Nat.div_lt_iff_lt_mul (Nat.two_pow_pos _)]
  calc hashTo64BigInt digest < 2 ^ 64 := hashTo64BigInt_lt digest hb
    _ = 2 ^ (64 - n) * 2 ^ n := by
        rw [← pow_add]
        congr 1
        omega

/-- C1 (amended): for every byte digest and every estimator whose
index-bit-count is below 64, the custom update writes to the register indexed
by the digest value modulo 2 to the index-bit-count the maximum of the old
register and a rank equal to 1 plus the number of high-order zero bits of the
k-bit remainder field (k when the remainder is zero). The rank is derived by
scanning the remainder from its most significant bit, not from the
least-significant set bit adjacent to the index field as the claim states. -/
theorem customHllUpdate_amended_rank (digest : List Nat) (hll : HyperLogLog)
    (hb : ∀ b ∈ digest, b < 256) (hn : hll.nbBytesPerHash < 64) :
    customHllUpdate digest hll = amendedHllUpdate digest hll :=
  customHllUpdate_closed_form digest hll hb hn

/-- Witness for the amended claim C1 at a concrete digest and estimator. -/
theorem customHllUpdate_amended_rank_witness :
    customHllUpdate [0, 0, 0, 0, 0, 0, 4, 0] (newHyperLogLog 1024)
      = amendedHllUpdate [0, 0, 0, 0, 0, 0, 4, 0] (newHyperLogLog 1024) :=
  customHllUpdate_amended_rank _ _ (by decide) (by norm_num [newHyperLogLog, Nat.log2])

/-- Counterexample to claim C1 as stated: for the digest whose 64-bit value is
1024 the remainder field is 1, so the rank claimed via the least-significant
set bit is 1, but the code stores 54 (the leading-zero based rank of the
54-bit remainder). -/
theorem specHllUpdate_mismatch_counterexample :
    (specHllUpdate [0, 0, 0, 0, 0, 0, 4, 0] (newHyperLogLog 1024)).registers.getD 0 0 = 1 ∧
    (customHllUpdate [0, 0, 0, 0, 0, 0, 4, 0] (newHyperLogLog 1024)).registers.getD 0 0 = 54 ∧
    specHllUpdate [0, 0, 0, 0, 0, 0, 4, 0] (newHyperLogLog 1024)
      ≠ customHllUpdate [0, 0, 0, 0, 0, 0, 4, 0] (newHyperLogLog 1024) := by
  have hnew : newHyperLogLog 1024
      = { nbRegisters := 1024, nbBytesPerHash := 10,
          registers := List.replicate 1024 0 } := by
    simp [newHyperLogLog, Nat.log2]
  have h1 : (specHllUpdate [0, 0, 0, 0, 0, 0, 4, 0]
      (newHyperLogLog 1024)).registers.getD 0 0 = 1 := by
    rw [hnew]
    decide
  have h2 : (customHllUpdate [0, 0, 0, 0, 0, 0, 4, 0]
      (newHyperLogLog 1024)).registers.getD 0 0 = 54 := by
    rw [hnew, customHllUpdate_closed_form _ _ (by decide) (by norm_num)]
    have hidx : hashTo64BigInt [0, 0, 0, 0, 0, 0, 4, 0] % 2 ^ (10 : Nat) = 0 := by decide
    have hsec : hashTo64BigInt [0, 0, 0, 0, 0, 0, 4, 0] / 2 ^ (10 : Nat) = 1 := by decide
    have hcr : codeRank 54 1 = 54 := by simp [codeRank, Nat.log2]
    simp only [amendedHllUpdate, hidx, hsec, hcr]
    decide
  refine ⟨h1, h2, fun heq => ?_⟩
  rw [heq] at h1
  rw [h1] at h2
  exact absurd h2 (by decide)

/-- C10: for every byte digest and every estimator built with the configured
register count, the register index stays below the register array length, the
rank stays at or below 54 and fits the six-bit register range of the spec,
and the update preserves the register array length. -/
theorem hll_update_in_bounds (digest : List Nat) (hll : HyperLogLog)
    (hb : ∀ b ∈ digest, b < 256) (hW : hll.WF)
    (hm : hll.nbRegisters = HLL_REGISTERS) :
    (customHllUpdate digest hll).registers
        = hll.registers.set (hllIndexAndRank digest hll).1
            (max (hll.registers.getD (hllIndexAndRank digest hll).1 0)
              (hllIndexAndRank digest hll).2) ∧
    (hllIndexAndRank digest hll).1 < hll.registers.length ∧
    (hllIndexAndRank digest hll).2 ≤ 54 ∧
    (hllIndexAndRank digest hll).2 < 2 ^ 6 ∧
    (customHllUpdate digest hll).registers.length = hll.registers.length := by
  obtain ⟨h1, h2⟩ := hW
  have hbits : hll.nbBytesPerHash = 10 := by
    rw [h1, hm]
    simp [HLL_REGISTERS, Nat.log2]
  have hidx1 : (hllIndexAndRank digest hll).1
      = hashTo64BigInt digest &&& ((1 <<< hll.nbBytesPerHash) - 1) := rfl
  have hidxmod : (hllIndexAndRank digest hll).1
      = hashTo64BigInt digest % 2 ^ hll.nbBytesPerHash := by
    rw [hidx1, Nat.shiftLeft_eq, one_mul, Nat.and_pow_two_sub_one_eq_mod]
  have hlow : (hllIndexAndRank digest hll).1 < hll.registers.length := by
    rw [hidxmod, h2, hm, hbits]
    have : (HLL_REGISTERS : Nat) = 2 ^ 10 := by norm_num [HLL_REGISTERS]
    rw [this]
    exact Nat.mod_lt _ (Nat.two_pow_pos _)
  have hsecshift : hashTo64BigInt digest >>> hll.nbBytesPerHash
      = hashTo64BigInt digest / 2 ^ hll.nbBytesPerHash :=
    Nat.shiftRight_eq_div_pow _ _
  have hslt : hashTo64BigInt digest / 2 ^ hll.nbBytesPerHash
      < 2 ^ (64 - hll.nbBytesPerHash) :=
    hash_div_lt digest hb _ (by omega)
  have hrank : (hllIndexAndRank digest hll).2
      = codeRank (64 - hll.nbBytesPerHash)
          (hashTo64BigInt digest / 2 ^ hll.nbBytesPerHash) := by
    show rankFromIdx (64 - hll.nbBytesPerHash)
        ((padZeros (64 - hll.nbBytesPerHash)
          (toBinaryChars (hashTo64BigInt digest >>> hll.nbBytesPerHash))).findIdx?
            (fun c => c == '1')) = _
    rw [hsecshift]
    exact rankFromIdx_pad_eq_codeRank _ _ (by omega) hslt
  have hrank54 : (hllIndexAndRank digest hll).2 ≤ 54 := by
    rw [hrank, hbits]
    unfold codeRank
    split
    · omega
    · omega
  refine ⟨rfl, hlow, hrank54, by omega, ?_⟩
  show (hll.registers.set (hllIndexAndRank digest hll).1 _).length = _
  exact List.length_set _ _ _

/-- Witness for C10 at a concrete digest and a freshly constructed
estimator. -/
theorem hll_update_in_bounds_witness :
    (customHllUpdate [1, 2, 3, 4, 5, 6, 7, 8] (newHyperLogLog 1024)).registers
        = (newHyperLogLog 1024).registers.set
            (hllIndexAndRank [1, 2, 3, 4, 5, 6, 7, 8] (newHyperLogLog 1024)).1
            (max ((newHyperLogLog 1024).registers.getD
              (hllIndexAndRank [1, 2, 3, 4, 5, 6, 7, 8] (newHyperLogLog 1024)).1 0)
              (hllIndexAndRank [1, 2, 3, 4, 5, 6, 7, 8] (newHyperLogLog 1024)).2) ∧
    (hllIndexAndRank [1, 2, 3, 4, 5, 6, 7, 8] (newHyperLogLog 1024)).1
        < (newHyperLogLog 1024).registers.length ∧
    (hllIndexAndRank [1, 2, 3, 4, 5, 6, 7, 8] (newHyperLogLog 1024)).2 ≤ 54 ∧
    (hllIndexAndRank [1, 2, 3, 4, 5, 6, 7, 8] (newHyperLogLog 1024)).2 < 2 ^ 6 ∧
    (customHllUpdate [1, 2, 3, 4, 5, 6, 7, 8] (newHyperLogLog 1024)).registers.length
        = (newHyperLogLog 1024).registers.length :=
  hll_update_in_bounds _ _ (by decide) ⟨rfl, by simp [newHyperLogLog]⟩ rfl

/-- Model of the JavaScript `Map.prototype.set` on the nonce map: replace the
value in place when the key is present, otherwise append the entry, matching
Map insertion order. -/
def mapSet (m : List (String × Nat)) (k : String) (v : Nat) : List (String × Nat) :=
  if (m.lookup k).isSome then m.map (fun p => if p.1 = k then (k, v) else p)
  else m ++ [(k, v)]

/-- Replay guard accept operation as the server implements it: the membership
test of part_000 line 166 combined with the record step of line 177. A present
nonce is refused with the map untouched; an absent nonce is recorded together
with the current time. -/
def acceptNonce (m : List (String × Nat)) (nonce : String) (now : Nat) :
    Bool × List (String × Nat) :=
  if (m.lookup nonce).isSome then (false, m) else (true, mapSet m nonce now)

/-- Embedding of the periodic sweep (part_000 lines 72-77): the interval
callback deletes every entry strictly older than the window, so an entry is
kept exactly when now minus its timestamp is at most the window. -/
def sweepNonces (m : List (String × Nat)) (now : Nat) : List (String × Nat) :=
  m.filter (fun p => decide (((now : Int) - (p.2 : Int)) ≤ (NONCE_WINDOW_MS : Int)))

/-- Operations that touch the nonce map over time: a sweep tick or an accept
attempt for some nonce. -/
inductive GuardOp where
  | sweep (now : Nat)
  | accept (nonce : String) (now : Nat)

def guardStep (m : List (String × Nat)) : GuardOp → List (String × Nat)
  | .sweep now => sweepNonces m now
  | .accept nonce now => (acceptNonce m nonce now).2

def guardRun (m : List (String × Nat)) (ops : List GuardOp) : List (String × Nat) :=
  ops.foldl guardStep m

theorem lookup_append_single (m : List (String × Nat)) (n k : String) (t v : Nat)
    (h : m.lookup n = some t) : (m ++ [(k, v)]).lookup n = some t := by
  induction m with
  | nil => simp [List.lookup] at h
  | cons p tl ih =>
    cases p with
    | mk pk pv =>
      by_cases hk : n == pk
      · simp [List.lookup, hk] at h ⊢
        exact h
      · simp only [List.cons_append, List.lookup, hk] at h ⊢
        exact ih h

theorem lookup_preserved_accept (m : List (String × Nat)) (n n2 : String)
    (t now : Nat) (h : m.lookup n = some t) :
    ((acceptNonce m n2 now).2).lookup n = some t := by
  unfold acceptNonce
  by_cases hp : (m.lookup n2).isSome
  · rw [if_pos hp]
    exact h
  · rw [if_neg hp]
    have hnone : m.lookup n2 = none := by
      cases hcase : m.lookup n2 with
      | none => rfl
      | some x => rw [hcase] at hp; simp at hp
    unfold mapSet
    rw [hnone]
    simp only [Option.isSome_none, Bool.false_eq_true, if_false]
    exact lookup_append_single m n n2 t now h

theorem lookup_preserved_sweep (m : List (String × Nat)) (n : String)
    (t now : Nat) (h : m.lookup n = some t)
    (hfresh : ((now : Int) - (t : Int)) ≤ (NONCE_WINDOW_MS : Int)) :
    (sweepNonces m now).lookup n = some t := by
  induction m with
  | nil => simp [List.lookup] at h
  | cons p tl ih =>
    cases p with
    | mk pk pv =>
      unfold sweepNonces at ih ⊢
      by_cases hk : n == pk
      · simp only [List.lookup, hk] at h
        have hv : pv = t := by simpa using h
        subst hv
        rw [List.filter_cons]
        have hdec : decide (((now : Int) - (pv : Int)) ≤ (NONCE_WINDOW_MS : Int)) = true := by
          simpa using hfresh
        rw [hdec]
        simp [List.lookup, hk]
      · simp only [List.lookup, hk] at h
        rw [List.filter_cons]
        by_cases hkeep : ((now : Int) - (pv : Int)) ≤ (NONCE_WINDOW_MS : Int)
        · have hdec : decide (((now : Int) - (pv : Int)) ≤ (NONCE_WINDOW_MS : Int)) = true := by
            simpa using hkeep
          rw [hdec]
          simpa [List.lookup, hk] using ih h
        · have hdec : decide (((now : Int) - (pv : Int)) ≤ (NONCE_WINDOW_MS : Int)) = false := by
            simpa using hkeep
          rw [hdec]
          simpa using ih h

theorem lookup_preserved_run (m : List (String × Nat)) (n : String) (t : Nat)
    (ops : List GuardOp) (h : m.lookup n = some t)
    (hops : ∀ op ∈ ops, ∀ s, op = GuardOp.sweep s →
      ((s : Int) - (t : Int)) ≤ (NONCE_WINDOW_MS : Int)) :
    (guardRun m ops).lookup n = some t := by
  induction ops generalizing m with
  | nil => exact h
  | cons op tl ih =>
    have hstep : (guardStep m op).lookup n = some t := by
      cases op with
      | sweep s =>
        exact lookup_preserved_sweep m n t s h
          (hops (GuardOp.sweep s) (by simp) s rfl)
      | accept n2 s => exact lookup_preserved_accept m n n2 t s h
    exact ih (guardStep m op) hstep
      (fun op2 hmem s hs => hops op2 (by simp [hmem]) s hs)

/-- Counterexample to claim C4 as stated: nonce abc was recorded at time 0 and
is already expired at time 70000 under the 60000 ms window, yet accept still
returns false and leaves the map unchanged, because the inline check tests
presence only; expired entries disappear only at the next periodic sweep. -/
theorem acceptNonce_expired_counterexample :
    ((70000 : Int) - (0 : Int)) > (NONCE_WINDOW_MS : Int) ∧
    acceptNonce [("abc", 0)] "abc" 70000 = (false, [("abc", 0)]) := by
  constructor
  · norm_num [NONCE_WINDOW_MS]
  · decide

/-- C4 (amended): accept returns false and leaves the map unchanged whenever
the nonce is present, whether or not it has expired; an absent nonce is
recorded with the current time and accepted; and a nonce present with
timestamp t survives every sequence of sweeps at times up to t plus the
window (and arbitrary accepts), so any resubmission in that span is
rejected. -/
theorem acceptNonce_amended (m : List (String × Nat)) (nonce : String)
    (now t : Nat) (ops : List GuardOp) :
    ((m.lookup nonce).isSome = true → acceptNonce m nonce now = (false, m)) ∧
    ((m.lookup nonce).isSome = false →
      acceptNonce m nonce now = (true, mapSet m nonce now)) ∧
    (m.lookup nonce = some t →
      (∀ op ∈ ops, ∀ s, op = GuardOp.sweep s →
        ((s : Int) - (t : Int)) ≤ (NONCE_WINDOW_MS : Int)) →
      ∀ now2, (acceptNonce (guardRun m ops) nonce now2).1 = false) := by
  refine ⟨?_, ?_, ?_⟩
  · intro h
    unfold acceptNonce
    rw [if_pos h]
  · intro h
    unfold acceptNonce
    rw [if_neg (by simp [h])]
  · intro h hops now2
    have hrun := lookup_preserved_run m nonce t ops h hops
    unfold acceptNonce
    rw [if_pos (by simp [hrun])]

/-- Witness for the amended claim C4: a present nonce is rejected unchanged,
an absent nonce is recorded and accepted, and a nonce recorded at time 0 is
still rejected at time 30000 after a sweep at time 30000. -/
theorem acceptNonce_amended_witness :
    (acceptNonce [("abc", 0)] "abc" 30000 = (false, [("abc", 0)])) ∧
    (acceptNonce [] "xyz" 5 = (true, mapSet [] "xyz" 5)) ∧
    ((acceptNonce (guardRun [("abc", 0)] [GuardOp.sweep 30000]) "abc" 30000).1 = false) := by
  refine ⟨?_, ?_, ?_⟩
  · exact (acceptNonce_amended [("abc", 0)] "abc" 30000 0 []).1 (by decide)
  · exact (acceptNonce_amended [] "xyz" 5 0 []).2.1 (by decide)
  · exact (acceptNonce_amended [("abc", 0)] "abc" 0 0 [GuardOp.sweep 30000]).2.2
      (by decide) (by intro op hmem s hs
                      simp at hmem
                      subst hmem
                      cases hs
                      norm_num [NONCE_WINDOW_MS]) 30000

/-- Embedding of `verifySignature` (part_000 lines 124-142). The external
bech32 decoder (returning the human readable part paired with the word list),
the word-to-byte converter and the ed25519 verifier are passed as parameters
returning Except values: an error models a thrown exception, and the
try/catch of the source maps every exception to false. -/
def verifySignature
    (bech32decode : String → Except String (String × List Nat))
    (fromWords : List Nat → Except String (List Nat))
    (ed25519verify : List Nat → List Nat → List Nat → Except String Bool)
    (utf8ToBytes : String → List Nat)
    (message signature publicKey : String) : Bool :=
  match bech32decode signature with
  | .error _ => false
  | .ok sigDecoded =>
    match bech32decode publicKey with
    | .error _ => false
    | .ok pkDecoded =>
      match fromWords sigDecoded.2 with
      | .error _ => false
      | .ok sigBytes =>
        match fromWords pkDecoded.2 with
        | .error _ => false
        | .ok pkBytes =>
          match ed25519verify sigBytes (utf8ToBytes message) pkBytes with
          | .error _ => false
          | .ok b => b

/-- C5: signature verification is total and fails closed: when the signature
or the public key does not decode, or the word conversion or the verifier
itself throws, the function returns false rather than propagating the
exception, and it returns true only when every step succeeded and the
ed25519 check returned true. As a pure function it has no side effects. -/
theorem verifySignature_fails_closed
    (bech32decode : String → Except String (String × List Nat))
    (fromWords : List Nat → Except String (List Nat))
    (ed25519verify : List Nat → List Nat → List Nat → Except String Bool)
    (utf8ToBytes : String → List Nat)
    (message signature publicKey : String) :
    (∀ e, bech32decode signature = .error e →
      verifySignature bech32decode fromWords ed25519verify utf8ToBytes
        message signature publicKey = false) ∧
    (∀ e, bech32decode publicKey = .error e →
      verifySignature bech32decode fromWords ed25519verify utf8ToBytes
        message signature publicKey = false) ∧
    (∀ sd e, bech32decode signature = .ok sd → fromWords sd.2 = .error e →
      verifySignature bech32decode fromWords ed25519verify utf8ToBytes
        message signature publicKey = false) ∧
    (∀ sd pd sb e, bech32decode signature = .ok sd → bech32decode publicKey = .ok pd →
      fromWords sd.2 = .ok sb → fromWords pd.2 = .error e →
      verifySignature bech32decode fromWords ed25519verify utf8ToBytes
        message signature publicKey = false) ∧
    (∀ sd pd sb pb e, bech32decode signature = .ok sd → bech32decode publicKey = .ok pd →
      fromWords sd.2 = .ok sb → fromWords pd.2 = .ok pb →
      ed25519verify sb (utf8ToBytes message) pb = .error e →
      verifySignature bech32decode fromWords ed25519verify utf8ToBytes
        message signature publicKey = false) ∧
    (verifySignature bech32decode fromWords ed25519verify utf8ToBytes
        message signature publicKey = true →
      ∃ sd pd sb pb, bech32decode signature = .ok sd ∧ bech32decode publicKey = .ok pd ∧
        fromWords sd.2 = .ok sb ∧ fromWords pd.2 = .ok pb ∧
        ed25519verify sb (utf8ToBytes message) pb = .ok true) := by
  refine ⟨?_, ?_, ?_, ?_, ?_, ?_⟩
  · intro e he
    simp [verifySignature, he]
  · intro e he
    unfold verifySignature
    cases hsig : bech32decode signature with
    | error e2 => rfl
    | ok sd => simp [he]
  · intro sd e hsd he
    simp [verifySignature, hsd, he]
    cases hpk : bech32decode publicKey with
    | error e2 => rfl
    | ok pd => simp [he]
  · intro sd pd sb e hsd hpd hsb he
    simp [verifySignature, hsd, hpd, hsb, he]
  · intro sd pd sb pb e hsd hpd hsb hpb he
    simp [verifySignature, hsd, hpd, hsb, hpb, he]
  · intro h
    cases hsig : bech32decode signature with
    | error e =>
      simp [verifySignature, hsig] at h
    | ok sd =>
      cases hpk : bech32decode publicKey with
      | error e =>
        simp [verifySignature, hsig, hpk] at h
      | ok pd =>
        cases hsw : fromWords sd.2 with
        | error e =>
          simp [verifySignature, hsig, hpk, hsw] at h
        | ok sb =>
          cases hpw : fromWords pd.2 with
          | error e =>
            simp [verifySignature, hsig, hpk, hsw, hpw] at h
          | ok pb =>
            cases hver : ed25519verify sb (utf8ToBytes message) pb with
            | error e =>
              simp [verifySignature, hsig, hpk, hsw, hpw, hver] at h
            | ok b =>
              simp only [verifySignature, hsig, hpk, hsw, hpw, hver] at h
              rw [h] at hver
              exact ⟨sd, pd, sb, pb, rfl, rfl, hsw, hpw, hver⟩

/-- Witness for C5: with a decoder that rejects every string, verification of
any triple returns false instead of throwing. -/
theorem verifySignature_fails_closed_witness :
    verifySignature (fun _ => Except.error "bad") (fun w => Except.ok w)
      (fun _ _ _ => Except.ok true) (fun _ => []) "m" "s" "p" = false :=
  (verifySignature_fails_closed (fun _ => Except.error "bad") (fun w => Except.ok w)
    (fun _ _ _ => Except.ok true) (fun _ => []) "m" "s" "p").1 "bad" rfl

/-- Model of the JavaScript falsiness test applied to a request field: a JSON
field is falsy when it is absent or the empty string (the request fields of
interest are strings; numeric timestamps are modelled as their decimal
strings). -/
def falsy : Option String → Bool
  | none => true
  | some s => s == ""

/-- Model of the JavaScript parseInt applied to a string: skip leading spaces,
read an optional sign and then the longest leading digit run; no digit run
gives NaN, modelled as `none` (and any comparison against NaN is false). -/
def parseIntJS (s : String) : Option Int :=
  let cs := (s.toList).dropWhile (fun c => c == ' ')
  let signAndRest : Bool × List Char :=
    match cs with
    | '-' :: rest => (true, rest)
    | '+' :: rest => (false, rest)
    | _ => (false, cs)
  let digitRun := signAndRest.2.takeWhile Char.isDigit
  if digitRun.isEmpty then none
  else
    let n : Nat := digitRun.foldl (fun a c => a * 10 + (c.toNat - 48)) 0
    some (if signAndRest.1 then -(n : Int) else (n : Int))

/-- Ingest request body as destructured at part_000 line 151. -/
structure IngestRequest where
  publicKey : Option String
  timestamp : Option String
  nonce : Option String
  signature : Option String
deriving Repr, DecidableEq

/-- Per-day pair of estimators (part_000 lines 80-93): all users of the day
and the users first seen globally on that day. -/
structure DailyData where
  hll : HyperLogLog
  newUsersHll : HyperLogLog
deriving Repr, DecidableEq

/-- In-memory statistics state touched by the ingest handler: the nonce map,
the global estimator, the global membership filter and the current day pair.
Modelled from the spec: the ScalableBloomFilter of the external bloom-filters
library is rendered as an exact membership list, realising the no-false-
negative guarantee of spec section 4.3 with the false-positive rate set to
zero. Persistence to disk is an external collaborator and is not part of the
state. -/
structure ServerState where
  usedNonces : List (String × Nat)
  allHLL : HyperLogLog
  allBloom : List String
  daily : DailyData
deriving Repr, DecidableEq

/-- Outcome of the ingest handler: an HTTP rejection with status and error
body, or the success payload with the day key and the newUser flag (the dau
count of the response is computed by the external count() and carries no
claim content). -/
inductive IngestResult where
  | rejected (status : Nat) (error : String)
  | success (date : String) (newUser : Bool)
deriving Repr, DecidableEq

/-- Missing-required-field test of part_000 line 154. -/
def anyMissing (req : IngestRequest) : Bool :=
  falsy req.publicKey || falsy req.timestamp || falsy req.nonce || falsy req.signature

/-- Timestamp freshness test of part_000 lines 159-163: reject when the
absolute distance between now and the parsed timestamp exceeds the window; an
unparsable timestamp (NaN) never rejects because NaN comparisons are false. -/
def staleTimestamp (now : Nat) (ts : String) : Bool :=
  match parseIntJS ts with
  | none => false
  | some t => decide (((now : Int) - t).natAbs > NONCE_WINDOW_MS)

/-- Lowercase hex digit for one value below 16. -/
def hexCharOf (n : Nat) : Char :=
  if n < 10 then Char.ofNat (48 + n) else Char.ofNat (87 + n)

/-- Model of the noble bytesToHex helper: two lowercase hex digits per byte. -/
def bytesToHex (bytes : List Nat) : String :=
  String.mk (bytes.foldr (fun b acc => hexCharOf (b % 256 / 16) :: hexCharOf (b % 16) :: acc) [])

/-- Identifier derivation of part_000 line 180: hex encoding of the blake3
digest of the public key string. -/
def userHashOf (digest : String → List Nat) (req : IngestRequest) : String :=
  bytesToHex (digest (req.publicKey.getD ""))

/-- Embedding of the ingest handler (part_000 lines 149-216). The signature
verifier and the blake3 digest are parameters; `now` is the Date.now()
sample taken at line 159 and `dateKey` the current day key. The handler
returns the response together with the post-request state; the writeFileSync
persistence calls and the deferred updateAggregates call act on the file
system, an external collaborator, and happen only in the final success
branch. -/
def ingest (verify : String → String → String → Bool)
    (digest : String → List Nat) (now : Nat) (dateKey : String)
    (st : ServerState) (req : IngestRequest) : IngestResult × ServerState :=
  if anyMissing req then
    (.rejected 400 "Missing required fields", st)
  else if staleTimestamp now (req.timestamp.getD "") then
    (.rejected 400 "Timestamp too old or in future", st)
  else if (st.usedNonces.lookup (req.nonce.getD "")).isSome then
    (.rejected 400 "Nonce already used (replay attack?)", st)
  else if !(verify (req.timestamp.getD "" ++ ":" ++ req.nonce.getD "")
      (req.signature.getD "") (req.publicKey.getD "")) then
    (.rejected 401 "Invalid signature", st)
  else
    let userHash := userHashOf digest req
    let isNewUser := !(st.allBloom.contains userHash)
    let newState : ServerState :=
      { usedNonces := mapSet st.usedNonces (req.nonce.getD "") now
        allHLL := customHllUpdate (digest userHash) st.allHLL
        allBloom := userHash :: st.allBloom
        daily := { hll := customHllUpdate (digest userHash) st.daily.hll
                   newUsersHll := if isNewUser
                     then customHllUpdate (digest userHash) st.daily.newUsersHll
                     else st.daily.newUsersHll } }
    (.success dateKey isNewUser, newState)

/-- C3: the four validation checks run in the mandatory order and the first
failing check rejects with the state unchanged; because every part holds for
an arbitrary verifier function, signature verification cannot influence any
earlier rejection, and a rejection never reaches the update steps. -/
theorem ingest_first_failing_check_rejects
    (verify : String → String → String → Bool) (digest : String → List Nat)
    (now : Nat) (dateKey : String) (st : ServerState) (req : IngestRequest) :
    (anyMissing req = true →
      ingest verify digest now dateKey st req
        = (.rejected 400 "Missing required fields", st)) ∧
    (anyMissing req = false →
      staleTimestamp now (req.timestamp.getD "") = true →
      ingest verify digest now dateKey st req
        = (.rejected 400 "Timestamp too old or in future", st)) ∧
    (anyMissing req = false →
      staleTimestamp now (req.timestamp.getD "") = false →
      (st.usedNonces.lookup (req.nonce.getD "")).isSome = true →
      ingest verify digest now dateKey st req
        = (.rejected 400 "Nonce already used (replay attack?)", st)) ∧
    (anyMissing req = false →
      staleTimestamp now (req.timestamp.getD "") = false →
      (st.usedNonces.lookup (req.nonce.getD "")).isSome = false →
      verify (req.timestamp.getD "" ++ ":" ++ req.nonce.getD "")
        (req.signature.getD "") (req.publicKey.getD "") = false →
      ingest verify digest now dateKey st req
        = (.rejected 401 "Invalid signature", st)) := by
  refine ⟨?_, ?_, ?_, ?_⟩
  · intro h1
    simp [ingest, h1]
  · intro h1 h2
    simp [ingest, h1, h2]
  · intro h1 h2 h3
    simp [ingest, h1, h2, h3]
  · intro h1 h2 h3 h4
    simp [ingest, h1, h2, h3, h4]

/-- Witness for C3: a request with all fields present but a stale timestamp
is rejected by the freshness check even though the verifier accepts
everything, and the state is returned unchanged. -/
theorem ingest_first_failing_check_rejects_witness :
    ingest (fun _ _ _ => true) (fun _ => []) 200000 "2024-01-01"
      { usedNonces := [], allHLL := newHyperLogLog 4, allBloom := [],
        daily := { hll := newHyperLogLog 4, newUsersHll := newHyperLogLog 4 } }
      { publicKey := some "pk", timestamp := some "1", nonce := some "n1",
        signature := some "sig" }
      = (.rejected 400 "Timestamp too old or in future",
        { usedNonces := [], allHLL := newHyperLogLog 4, allBloom := [],
          daily := { hll := newHyperLogLog 4, newUsersHll := newHyperLogLog 4 } }) :=
  (ingest_first_failing_check_rejects (fun _ _ _ => true) (fun _ => []) 200000
    "2024-01-01"
    { usedNonces := [], allHLL := newHyperLogLog 4, allBloom := [],
      daily := { hll := newHyperLogLog 4, newUsersHll := newHyperLogLog 4 } }
    { publicKey := some "pk", timestamp := some "1", nonce := some "n1",
      signature := some "sig" }).2.1 (by decide) (by decide)

theorem ingest_sig_reject_conditions
    (verify : String → String → String → Bool) (digest : String → List Nat)
    (now : Nat) (dateKey : String) (st : ServerState) (req : IngestRequest)
    (st2 : ServerState)
    (h : ingest verify digest now dateKey st req
      = (.rejected 401 "Invalid signature", st2)) :
    anyMissing req = false ∧
    staleTimestamp now (req.timestamp.getD "") = false ∧
    (st.usedNonces.lookup (req.nonce.getD "")).isSome = false := by
  unfold ingest at h
  split at h
  case isTrue h1 => exact absurd (Prod.ext_iff.mp h).1 (by simp)
  case isFalse h1 =>
    split at h
    case isTrue h2 => exact absurd (Prod.ext_iff.mp h).1 (by simp)
    case isFalse h2 =>
      split at h
      case isTrue h3 => exact absurd (Prod.ext_iff.mp h).1 (by simp)
      case isFalse h3 =>
        exact ⟨by simpa only [Bool.not_eq_true] using h1,
          by simpa only [Bool.not_eq_true] using h2,
          by simpa only [Bool.not_eq_true] using h3⟩

/-- C9: a rejected request leaves the whole statistics state unchanged (no
nonce recorded, no estimator or filter touched; the persistence calls sit
after every update in the success branch only); in particular, after a
rejection for an invalid signature the same nonce, resubmitted with a valid
signature and fresh data, is accepted. -/
theorem ingest_rejection_frame
    (verify : String → String → String → Bool) (digest : String → List Nat)
    (now : Nat) (dateKey : String) (st : ServerState) (req : IngestRequest) :
    (∀ status error st2,
      ingest verify digest now dateKey st req = (.rejected status error, st2) →
        st2 = st) ∧
    (∀ st2,
      ingest verify digest now dateKey st req
          = (.rejected 401 "Invalid signature", st2) →
      ∀ (verify2 : String → String → String → Bool) (now2 : Nat)
        (req2 : IngestRequest),
        req2.nonce = req.nonce →
        anyMissing req2 = false →
        staleTimestamp now2 (req2.timestamp.getD "") = false →
        verify2 (req2.timestamp.getD "" ++ ":" ++ req2.nonce.getD "")
          (req2.signature.getD "") (req2.publicKey.getD "") = true →
        (ingest verify2 digest now2 dateKey st2 req2).1
          = .success dateKey (!(st2.allBloom.contains (userHashOf digest req2)))) := by
  have hframe : ∀ status error st2,
      ingest verify digest now dateKey st req = (.rejected status error, st2) →
        st2 = st := by
    intro status error st2 h
    unfold ingest at h
    split at h
    · exact (Prod.ext_iff.mp h).2.symm
    · split at h
      · exact (Prod.ext_iff.mp h).2.symm
      · split at h
        · exact (Prod.ext_iff.mp h).2.symm
        · split at h
          · exact (Prod.ext_iff.mp h).2.symm
          · simp at h
  refine ⟨hframe, ?_⟩
  intro st2 h verify2 now2 req2 hnonce hm2 hs2 hv2
  obtain ⟨hm1, hs1, hn1⟩ :=
    ingest_sig_reject_conditions verify digest now dateKey st req st2 h
  have hst : st2 = st := hframe _ _ _ h
  subst hst
  have hn2 : req2.nonce.getD "" = req.nonce.getD "" := by rw [hnonce]
  have hv2b : verify2 (req2.timestamp.getD "" ++ ":" ++ req.nonce.getD "")
      (req2.signature.getD "") (req2.publicKey.getD "") = true := by
    rw [← hn2]
    exact hv2
  simp [ingest, hm2, hs2, hv2, hv2b, hn2, hn1]

/-- Sample in-memory state for the pipeline witnesses. -/
def sampleState : ServerState :=
  { usedNonces := [], allHLL := newHyperLogLog 1024, allBloom := [],
    daily := { hll := newHyperLogLog 1024, newUsersHll := newHyperLogLog 1024 } }

/-- Sample well-formed request for the pipeline witnesses. -/
def sampleReq : IngestRequest :=
  { publicKey := some "pk", timestamp := some "1000", nonce := some "n1",
    signature := some "sig" }

/-- Witness for C9: after a ping rejected for a bad signature the state is
unchanged, so the same nonce immediately succeeds with an accepting
verifier. -/
theorem ingest_rejection_frame_witness :
    (ingest (fun _ _ _ => true) (fun _ => [1]) 1000 "2024-01-01"
        sampleState sampleReq).1
      = .success "2024-01-01"
          (!(sampleState.allBloom.contains (userHashOf (fun _ => [1]) sampleReq))) :=
  (ingest_rejection_frame (fun _ _ _ => false) (fun _ => [1]) 1000 "2024-01-01"
    sampleState sampleReq).2 sampleState (by rfl)
    (fun _ _ _ => true) 1000 sampleReq rfl (by decide) (by decide) rfl

/-- C8: on an accepted ping the newUser response field equals the membership
test performed on the global filter before the identifier is added; the
global filter, global estimator and daily estimator are all updated with the
derived identifier; and the daily new-users estimator is updated exactly when
that test said the identifier was new. -/
theorem ingest_success_updates
    (verify : String → String → String → Bool) (digest : String → List Nat)
    (now : Nat) (dateKey : String) (st : ServerState) (req : IngestRequest)
    (hm : anyMissing req = false)
    (hs : staleTimestamp now (req.timestamp.getD "") = false)
    (hn : (st.usedNonces.lookup (req.nonce.getD "")).isSome = false)
    (hv : verify (req.timestamp.getD "" ++ ":" ++ req.nonce.getD "")
        (req.signature.getD "") (req.publicKey.getD "") = true) :
    (ingest verify digest now dateKey st req).1
        = .success dateKey (!(st.allBloom.contains (userHashOf digest req))) ∧
    (ingest verify digest now dateKey st req).2.allBloom
        = userHashOf digest req :: st.allBloom ∧
    (ingest verify digest now dateKey st req).2.allHLL
        = customHllUpdate (digest (userHashOf digest req)) st.allHLL ∧
    (ingest verify digest now dateKey st req).2.daily.hll
        = customHllUpdate (digest (userHashOf digest req)) st.daily.hll ∧
    (ingest verify digest now dateKey st req).2.daily.newUsersHll
        = (if st.allBloom.contains (userHashOf digest req)
           then st.daily.newUsersHll
           else customHllUpdate (digest (userHashOf digest req)) st.daily.newUsersHll) ∧
    (ingest verify digest now dateKey st req).2.usedNonces
        = mapSet st.usedNonces (req.nonce.getD "") now := by
  refine ⟨?_, ?_, ?_, ?_, ?_, ?_⟩
  · simp [ingest, hm, hs, hn, hv]
  · simp [ingest, hm, hs, hn, hv]
  · simp [ingest, hm, hs, hn, hv]
  · simp [ingest, hm, hs, hn, hv]
  · by_cases hc : st.allBloom.contains (userHashOf digest req) = true
    · simp [ingest, hm, hs, hn, hv, hc]
    · have hc2 : st.allBloom.contains (userHashOf digest req) = false := by
        simpa using hc
      simp [ingest, hm, hs, hn, hv, hc2]
  · simp [ingest, hm, hs, hn, hv]

/-- Witness for C8 at a concrete accepted ping against the sample state. -/
theorem ingest_success_updates_witness :
    (ingest (fun _ _ _ => true) (fun _ => [1]) 1000 "2024-01-01"
        sampleState sampleReq).1
        = .success "2024-01-01"
            (!(sampleState.allBloom.contains (userHashOf (fun _ => [1]) sampleReq))) ∧
    (ingest (fun _ _ _ => true) (fun _ => [1]) 1000 "2024-01-01"
        sampleState sampleReq).2.allBloom
        = userHashOf (fun _ => [1]) sampleReq :: sampleState.allBloom ∧
    (ingest (fun _ _ _ => true) (fun _ => [1]) 1000 "2024-01-01"
        sampleState sampleReq).2.allHLL
        = customHllUpdate ((fun _ => [1]) (userHashOf (fun _ => [1]) sampleReq))
            sampleState.allHLL ∧
    (ingest (fun _ _ _ => true) (fun _ => [1]) 1000 "2024-01-01"
        sampleState sampleReq).2.daily.hll
        = customHllUpdate ((fun _ => [1]) (userHashOf (fun _ => [1]) sampleReq))
            sampleState.daily.hll ∧
    (ingest (fun _ _ _ => true) (fun _ => [1]) 1000 "2024-01-01"
        sampleState sampleReq).2.daily.newUsersHll
        = (if sampleState.allBloom.contains (userHashOf (fun _ => [1]) sampleReq)
           then sampleState.daily.newUsersHll
           else customHllUpdate ((fun _ => [1]) (userHashOf (fun _ => [1]) sampleReq))
             sampleState.daily.newUsersHll) ∧
    (ingest (fun _ _ _ => true) (fun _ => [1]) 1000 "2024-01-01"
        sampleState sampleReq).2.usedNonces
        = mapSet sampleState.usedNonces (sampleReq.nonce.getD "") 1000 :=
  ingest_success_updates (fun _ _ _ => true) (fun _ => [1]) 1000 "2024-01-01"
    sampleState sampleReq (by decide) (by decide) (by decide) rfl

/-- Model of JavaScript Math.round: floor of the value plus one half. -/
def jsRound (q : ℚ) : Int := ⌊q + 1 / 2⌋

/-- Retention record returned by `calcRetention` (part_000 lines 291-297). -/
structure RetentionRecord where
  cohortDate : String
  returnDate : String
  cohortSize : Int
  returnedUsers : Int
  retentionRate : ℚ
deriving Repr, DecidableEq

/-- Embedding of `calcRetention` (part_000 lines 271-298) over an in-memory
snapshot of the sorted daily files, newest first, each paired with its loaded
daily data. The count() estimate of the external library is an abstract
parameter into the rationals, standing for the floating point estimate. -/
def calcRetention (count : HyperLogLog → ℚ) (files : List (String × DailyData))
    (cohortIdx returnIdx : Nat) : Option RetentionRecord :=
  if files.length ≤ max cohortIdx returnIdx then none
  else
    match files[cohortIdx]?, files[returnIdx]? with
    | some (cohortDate, cohortData), some (returnDate, returnData) =>
      let cohortSize := count cohortData.hll
      let returnSize := count returnData.hll
      let unionHLL := ((newHyperLogLog HLL_REGISTERS).merge cohortData.hll).merge
        returnData.hll
      let unionSize := count unionHLL
      let retained := max 0 (cohortSize + returnSize - unionSize)
      let rate := if cohortSize > 0 then retained / cohortSize * 100 else 0
      some { cohortDate := cohortDate, returnDate := returnDate,
             cohortSize := jsRound cohortSize,
             returnedUsers := jsRound retained,
             retentionRate := (jsRound (rate * 100) : ℚ) / 100 }
    | _, _ => none

/-- Embedding of the adaptive retention block (part_000 lines 300-305): each
offset is attempted only with at least two daily buckets, and the cohort
index is clamped to the closest available bucket. -/
def retentionSummary (count : HyperLogLog → ℚ) (files : List (String × DailyData)) :
    Option RetentionRecord × Option RetentionRecord × Option RetentionRecord :=
  ( if 2 ≤ files.length then calcRetention count files 1 0 else none,
    if 2 ≤ files.length then calcRetention count files (min 7 (files.length - 1)) 0
      else none,
    if 2 ≤ files.length then calcRetention count files (min 30 (files.length - 1)) 0
      else none )

/-- C6: the retention estimate is inclusion-exclusion over the two estimates
and the estimate of a third estimator merged from both, the overlap is
clamped to at least zero (never an error), and the rate is overlap over
cohort size times 100 when the cohort size is positive and 0 otherwise. -/
theorem calcRetention_inclusion_exclusion
    (count : HyperLogLog → ℚ) (files : List (String × DailyData))
    (cohortIdx returnIdx : Nat) (cohortDate returnDate : String)
    (cohortData returnData : DailyData)
    (hlen : max cohortIdx returnIdx < files.length)
    (hc : files[cohortIdx]? = some (cohortDate, cohortData))
    (hr : files[returnIdx]? = some (returnDate, returnData)) :
    calcRetention count files cohortIdx returnIdx
      = some { cohortDate := cohortDate, returnDate := returnDate,
               cohortSize := jsRound (count cohortData.hll),
               returnedUsers := jsRound (max 0 (count cohortData.hll
                 + count returnData.hll
                 - count (((newHyperLogLog HLL_REGISTERS).merge cohortData.hll).merge
                     returnData.hll))),
               retentionRate := (jsRound ((if count cohortData.hll > 0
                 then max 0 (count cohortData.hll + count returnData.hll
                   - count (((newHyperLogLog HLL_REGISTERS).merge cohortData.hll).merge
                       returnData.hll)) / count cohortData.hll * 100
                 else 0) * 100) : ℚ) / 100 } ∧
    0 ≤ max 0 (count cohortData.hll + count returnData.hll
      - count (((newHyperLogLog HLL_REGISTERS).merge cohortData.hll).merge
          returnData.hll)) := by
  constructor
  · unfold calcRetention
    rw [if_neg (by omega)]
    rw [hc, hr]
  · exact le_max_left 0 _

/-- Counting function used by the retention witnesses. -/
def countZero : HyperLogLog → ℚ := fun _ => 0

/-- Sample daily pair used by the retention witnesses. -/
def sampleDaily : DailyData :=
  { hll := newHyperLogLog 1024, newUsersHll := newHyperLogLog 1024 }

/-- Witness for C6 on a two-day snapshot with the zero counting function. -/
theorem calcRetention_inclusion_exclusion_witness :
    calcRetention countZero [("2024-01-02", sampleDaily), ("2024-01-01", sampleDaily)] 1 0
      = some { cohortDate := "2024-01-01", returnDate := "2024-01-02",
               cohortSize := jsRound (countZero sampleDaily.hll),
               returnedUsers := jsRound (max 0 (countZero sampleDaily.hll
                 + countZero sampleDaily.hll
                 - countZero (((newHyperLogLog HLL_REGISTERS).merge sampleDaily.hll).merge
                     sampleDaily.hll))),
               retentionRate := (jsRound ((if countZero sampleDaily.hll > 0
                 then max 0 (countZero sampleDaily.hll + countZero sampleDaily.hll
                   - countZero (((newHyperLogLog HLL_REGISTERS).merge sampleDaily.hll).merge
                       sampleDaily.hll)) / countZero sampleDaily.hll * 100
                 else 0) * 100) : ℚ) / 100 } ∧
    0 ≤ max 0 (countZero sampleDaily.hll + countZero sampleDaily.hll
      - countZero (((newHyperLogLog HLL_REGISTERS).merge sampleDaily.hll).merge
          sampleDaily.hll)) :=
  calcRetention_inclusion_exclusion countZero
    [("2024-01-02", sampleDaily), ("2024-01-01", sampleDaily)] 1 0
    "2024-01-01" "2024-01-02" sampleDaily sampleDaily (by decide) rfl rfl

theorem calcRetention_isSome (count : HyperLogLog → ℚ)
    (files : List (String × DailyData)) (cohortIdx returnIdx : Nat)
    (hci : cohortIdx < files.length) (hri : returnIdx < files.length) :
    (calcRetention count files cohortIdx returnIdx).isSome = true := by
  unfold calcRetention
  rw [if_neg (by omega)]
  have hc : files[cohortIdx]? = some files[cohortIdx] := List.getElem?_eq_getElem hci
  have hr : files[returnIdx]? = some files[returnIdx] := List.getElem?_eq_getElem hri
  rw [hc, hr]
  simp

/-- Counterexample to claim C7 as stated: with three historical buckets there
are not enough buckets for the cohort offset 7, but the d7 entry is a
populated record computed from the clamped offset min(7, 2) = 2, not null. -/
theorem retention_d7_clamped_counterexample :
    ([("2024-01-03", sampleDaily), ("2024-01-02", sampleDaily),
      ("2024-01-01", sampleDaily)] : List (String × DailyData)).length < 8 ∧
    ((retentionSummary countZero
      [("2024-01-03", sampleDaily), ("2024-01-02", sampleDaily),
       ("2024-01-01", sampleDaily)]).2.1).isSome = true := by
  constructor
  · decide
  · rfl

/-- C7 (amended): with fewer than two historical buckets every retention
entry is null; with at least two buckets every entry is a populated record,
the cohort offset being clamped to the closest available bucket
(min(offset, bucket count minus 1)), so null appears exactly when fewer than
two buckets exist and a zero is never fabricated. -/
theorem retention_null_iff_insufficient (count : HyperLogLog → ℚ)
    (files : List (String × DailyData)) :
    (files.length < 2 → retentionSummary count files = (none, none, none)) ∧
    (2 ≤ files.length →
      (retentionSummary count files).1 = calcRetention count files 1 0 ∧
      (retentionSummary count files).2.1
        = calcRetention count files (min 7 (files.length - 1)) 0 ∧
      (retentionSummary count files).2.2
        = calcRetention count files (min 30 (files.length - 1)) 0 ∧
      ((retentionSummary count files).1).isSome = true ∧
      ((retentionSummary count files).2.1).isSome = true ∧
      ((retentionSummary count files).2.2).isSome = true) := by
  constructor
  · intro h
    unfold retentionSummary
    rw [if_neg (by omega), if_neg (by omega), if_neg (by omega)]
  · intro h
    have h1 : (retentionSummary count files).1 = calcRetention count files 1 0 := by
      unfold retentionSummary
      rw [if_pos h]
    have h2 : (retentionSummary count files).2.1
        = calcRetention count files (min 7 (files.length - 1)) 0 := by
      unfold retentionSummary
      rw [if_pos h, if_pos h, if_pos h]
    have h3 : (retentionSummary count files).2.2
        = calcRetention count files (min 30 (files.length - 1)) 0 := by
      unfold retentionSummary
      rw [if_pos h, if_pos h, if_pos h]
    refine ⟨h1, h2, h3, ?_, ?_, ?_⟩
    · rw [h1]
      exact calcRetention_isSome count files 1 0 (by omega) (by omega)
    · rw [h2]
      exact calcRetention_isSome count files (min 7 (files.length - 1)) 0
        (by omega) (by omega)
    · rw [h3]
      exact calcRetention_isSome count files (min 30 (files.length - 1)) 0
        (by omega) (by omega)

/-- Witness for the amended claim C7: one bucket gives all-null retention,
and three buckets give a populated d1 entry. -/
theorem retention_null_iff_insufficient_witness :
    retentionSummary countZero [("2024-01-01", sampleDaily)] = (none, none, none) ∧
    ((retentionSummary countZero
      [("2024-01-03", sampleDaily), ("2024-01-02", sampleDaily),
       ("2024-01-01", sampleDaily)]).1).isSome = true :=
  ⟨(retention_null_iff_insufficient countZero [("2024-01-01", sampleDaily)]).1
      (by decide),
   ((retention_null_iff_insufficient countZero
      [("2024-01-03", sampleDaily), ("2024-01-02", sampleDaily),
       ("2024-01-01", sampleDaily)]).2 (by decide)).2.2.2.1⟩
